import Mathlib

/-!
Verification of the mirror-mcp watch-history analyzers and prompt generator.

The Python modules `mirror_mcp/analyzers/topics.py`, `statistics.py`,
`time_patterns.py` and `mirror_mcp/generators/suno_prompt.py` are embedded
shallowly below.  Python lists become `List`, `collections.Counter` together
with `most_common` becomes `tally`/`mostCommon` (counts in first-occurrence
key order, sorted by count descending with a stable sort, exactly the
documented CPython behaviour), dictionaries become association lists with
unique keys, and machine floats that only ever hold exact ratios are
modelled as `ℚ`.  `math.log2` and `datetime.strftime`/`strptime` are
external library collaborators; they are passed in as explicit function
parameters, so every theorem quantifies over them.
-/

namespace MirrorMCP

/-- Python truthiness-preserving association-list lookup (dict with unique
keys; first match wins, the tables below list each key once). -/
def assocLookup {α : Type} (k : String) : List (String × α) → Option α
  | [] => none
  | (k', v) :: rest => if k = k' then some v else assocLookup k rest

theorem assocLookup_mem {α : Type} {k : String} {v : α} :
    ∀ {l : List (String × α)}, assocLookup k l = some v → (k, v) ∈ l := by
  intro l
  induction l with
  | nil => intro h; simp [assocLookup] at h
  | cons p rest ih =>
    obtain ⟨k', v'⟩ := p
    intro h
    by_cases hk : k = k'
    · simp [assocLookup, hk] at h
      subst hk; subst h
      exact List.mem_cons_self _ _
    · simp only [assocLookup, if_neg hk] at h
      exact List.mem_cons_of_mem _ (ih h)

/-- Keys in first-occurrence order, skipping the ones already `seen`. -/
def uniqueKeysAux {α : Type} [DecidableEq α] : List α → List α → List α
  | [], _ => []
  | x :: xs, seen =>
    if x ∈ seen then uniqueKeysAux xs seen
    else x :: uniqueKeysAux xs (x :: seen)

/-- The keys of a Python dict in insertion order: first occurrence kept,
later duplicates dropped (`dict`/`Counter` key order). -/
def uniqueKeys {α : Type} [DecidableEq α] (l : List α) : List α :=
  uniqueKeysAux l []

/-- `Counter(xs)` as an association list: keys in first-occurrence order,
each with its multiplicity. -/
def tally {α : Type} [DecidableEq α] [BEq α] (xs : List α) : List (α × Nat) :=
  (uniqueKeys xs).map (fun a => (a, xs.count a))

/-- Stable descending insertion by count: the new element goes after all
strictly larger counts and before equal ones, which preserves first-occurrence
order among ties just like `Counter.most_common`. -/
def insertCountDesc {α : Type} (x : α × Nat) : List (α × Nat) → List (α × Nat)
  | [] => [x]
  | y :: ys => if x.2 < y.2 then y :: insertCountDesc x ys else x :: y :: ys

/-- Stable sort by count, descending. -/
def sortCountDesc {α : Type} : List (α × Nat) → List (α × Nat)
  | [] => []
  | x :: xs => insertCountDesc x (sortCountDesc xs)

/-- `Counter(xs).most_common(k)`. -/
def mostCommon {α : Type} [DecidableEq α] [BEq α] (k : Nat) (xs : List α) :
    List (α × Nat) :=
  (sortCountDesc (tally xs)).take k

/-- Generic stable insertion sort used for `sorted(...)`. -/
def insertSorted {α : Type} (le : α → α → Bool) (x : α) : List α → List α
  | [] => [x]
  | y :: ys => if le x y then x :: y :: ys else y :: insertSorted le x ys

/-- `sorted(l, key=...)`, modelled as a stable insertion sort. -/
def pySorted {α : Type} (le : α → α → Bool) : List α → List α
  | [] => []
  | x :: xs => insertSorted le x (pySorted le xs)

/-- Python's `needle in haystack` on strings: substring containment. -/
def pyContains (haystack needle : String) : Bool :=
  decide (needle.data <:+: haystack.data)

/-- One character of `str.lower()`.  Only the ASCII range is mapped, which
covers every character the analyzers can feed it: Hangul has no case and
the fixed tables are ASCII. -/
def pyLowerChar (c : Char) : Char :=
  if 65 ≤ c.toNat ∧ c.toNat ≤ 90 then Char.ofNat (c.toNat + 32) else c

/-- `str.lower()`. -/
def pyLower (s : String) : String := String.mk (s.data.map pyLowerChar)

/-- Python's `<` on strings: lexicographic comparison of code points. -/
def strLtChars : List Char → List Char → Bool
  | [], [] => false
  | [], _ :: _ => true
  | _ :: _, [] => false
  | a :: as, b :: bs =>
    if a.toNat < b.toNat then true
    else if b.toNat < a.toNat then false
    else strLtChars as bs

def pyStrLt (a b : String) : Bool := strLtChars a.data b.data

/-! ## Data model (`mirror_mcp/models.py`)

`WatchHistoryEntry.time` is a Python `datetime`; the analyzers under
verification use exactly two of its projections: its instant (for ordering
and day spans, held as seconds `epochSec`) and `strftime("%Y-W%W")` (the
calendar-week key, held precomputed as `weekKey` since `strftime` is
standard-library territory).  Unused metadata fields (`header`, `products`,
`activityControls`) are omitted. -/

structure ChannelInfo where
  name : String
  url : Option String := none
  deriving DecidableEq

structure PyDateTime where
  epochSec : Nat
  weekKey : String
  deriving DecidableEq

structure WatchHistoryEntry where
  title : String
  titleUrl : Option String := none
  subtitles : List ChannelInfo := []
  time : PyDateTime
  deriving DecidableEq

namespace WatchHistoryEntry

/-- `title.removeprefix("Watched ")`. -/
def clean_title (e : WatchHistoryEntry) : String :=
  if e.title.data.take 8 = "Watched ".data then String.mk (e.title.data.drop 8)
  else e.title

/-- `subtitles[0].name if subtitles else None`. -/
def channel_name (e : WatchHistoryEntry) : Option String :=
  e.subtitles.head?.map (fun c => c.name)

end WatchHistoryEntry

/-! ## Topic extraction (`mirror_mcp/analyzers/topics.py`) -/

/-- One character of the `[가-힣]` class of `KOREAN_PATTERN`. -/
def isHangulChar (c : Char) : Bool := decide (44032 ≤ c.toNat ∧ c.toNat ≤ 55203)

/-- One character of the `[a-zA-Z]` class of `ENGLISH_PATTERN`. -/
def isLatinChar (c : Char) : Bool :=
  decide (('a' ≤ c ∧ c ≤ 'z') ∨ ('A' ≤ c ∧ c ≤ 'Z'))

/-- Scanner for `runsOf`: `acc` holds the current (reversed) partial run. -/
def runsOfAux (p : Char → Bool) : List Char → List Char → List (List Char)
  | [], acc => if acc.isEmpty then [] else [acc.reverse]
  | c :: cs, acc =>
    if p c then runsOfAux p cs (c :: acc)
    else if acc.isEmpty then runsOfAux p cs []
    else acc.reverse :: runsOfAux p cs []

/-- `PATTERN.findall`: both patterns are a single character class with `+`,
so `findall` returns the maximal runs of matching characters. -/
def runsOf (p : Char → Bool) (l : List Char) : List (List Char) :=
  runsOfAux p l []

/-- `PATTERN.search` on a single-class pattern succeeds iff some character
matches. -/
def hasRun (p : Char → Bool) (s : String) : Bool := s.data.any p

/-- The reverse lookup `_SYNONYM_LOOKUP` built from `SYNONYMS`, written out
as the final dict contents (key, canonical) in insertion order.  Every key
and every canonical is already lowercase.  The single collision, `통기타`
(inserted under `acoustic`, overwritten by `guitar`), is listed once with
its final value `guitar`. -/
def SYNONYM_LOOKUP : List (String × String) :=
  [("kpop", "kpop"), ("k-pop", "kpop"), ("케이팝", "kpop"), ("k pop", "kpop"),
   ("korean pop", "kpop"),
   ("lofi", "lofi"), ("lo-fi", "lofi"), ("로파이", "lofi"), ("lo fi", "lofi"),
   ("lofi hip hop", "lofi"),
   ("hiphop", "hiphop"), ("hip-hop", "hiphop"), ("힙합", "hiphop"),
   ("hip hop", "hiphop"), ("랩", "hiphop"),
   ("rnb", "rnb"), ("r&b", "rnb"), ("알앤비", "rnb"),
   ("rhythm and blues", "rnb"), ("알엔비", "rnb"),
   ("edm", "edm"), ("electronic", "edm"), ("일렉트로닉", "edm"),
   ("electronic dance", "edm"), ("electronica", "edm"),
   ("jazz", "jazz"), ("재즈", "jazz"), ("jaz", "jazz"),
   ("rock", "rock"), ("록", "rock"), ("락", "rock"),
   ("pop", "pop"), ("팝", "pop"), ("팝송", "pop"),
   ("classical", "classical"), ("클래식", "classical"),
   ("클래시컬", "classical"), ("클랙식", "classical"),
   ("indie", "indie"), ("인디", "indie"), ("인디음악", "indie"),
   ("acoustic", "acoustic"), ("어쿠스틱", "acoustic"),
   ("ballad", "ballad"), ("발라드", "ballad"), ("발라드곡", "ballad"),
   ("piano", "piano"), ("피아노", "piano"),
   ("guitar", "guitar"), ("기타", "guitar"), ("통기타", "guitar"),
   ("일렉기타", "guitar"),
   ("asmr", "asmr"), ("에이에스엠알", "asmr"),
   ("vlog", "vlog"), ("브이로그", "vlog"), ("일상", "vlog"), ("daily", "vlog"),
   ("gaming", "gaming"), ("게임", "gaming"), ("겜", "gaming"),
   ("플레이", "gaming"),
   ("tutorial", "tutorial"), ("강의", "tutorial"), ("튜토리얼", "tutorial"),
   ("강좌", "tutorial"),
   ("review", "review"), ("리뷰", "review"), ("후기", "review"),
   ("mukbang", "mukbang"), ("먹방", "mukbang"), ("eating show", "mukbang")]

/-- `normalize_keyword`: canonical form from the synonym table, otherwise the
word lowercased. -/
def normalize_keyword (word : String) : String :=
  (assocLookup (pyLower word) SYNONYM_LOOKUP).getD (pyLower word)

def STOPWORDS_EN : List String :=
  ["the", "a", "an", "and", "or", "but", "in", "on", "at", "to", "for",
   "of", "with", "by", "from", "as", "is", "was", "are", "were", "been",
   "be", "have", "has", "had", "do", "does", "did", "will", "would",
   "could", "should", "may", "might", "must", "shall", "can", "need",
   "this", "that", "these", "those", "it", "its", "my", "your", "our",
   "their", "his", "her", "what", "which", "who", "whom", "how", "when",
   "where", "why", "all", "each", "every", "both", "few", "more", "most",
   "other", "some", "such", "no", "not", "only", "own", "same", "so",
   "than", "too", "very", "just", "also", "now", "here", "there", "then",
   "official", "video", "music", "live", "new", "full", "hd", "mv"]

def STOPWORDS_KR : List String :=
  ["그", "이", "저", "것", "수", "등", "및", "더", "를", "을", "에", "의",
   "가", "는", "은", "로", "으로", "에서", "까지", "부터", "와", "과",
   "하다", "되다", "있다", "없다", "같다", "위해", "통해", "대한"]

def CATEGORY_KEYWORDS : List (String × List String) :=
  [("music",
    ["music", "song", "mv", "cover", "live", "concert", "playlist",
     "음악", "노래", "뮤비", "커버", "라이브", "콘서트",
     "lofi", "lo-fi", "jazz", "rock", "pop", "hip-hop", "hiphop",
     "edm", "classical", "acoustic", "indie", "r&b", "rnb",
     "발라드", "힙합", "재즈", "클래식", "케이팝", "kpop"]),
   ("gaming",
    ["game", "gaming", "gameplay", "게임", "플레이", "스트리밍",
     "stream", "twitch", "let\x27s play", "walkthrough"]),
   ("tech",
    ["tech", "review", "unboxing", "coding", "programming",
     "리뷰", "개발", "코딩", "프로그래밍", "tutorial",
     "python", "javascript", "react", "ai", "machine learning"]),
   ("entertainment",
    ["vlog", "funny", "comedy", "예능", "브이로그", "일상",
     "mukbang", "먹방", "asmr", "reaction", "리액션"]),
   ("education",
    ["tutorial", "learn", "how to", "강의", "배우기", "공부",
     "lecture", "course", "class", "lesson"])]

/-- The words one title contributes to `all_words` in
`extract_keywords_simple`: Korean runs (length ≥ 2, stopwords dropped,
then normalized) followed by Latin runs of the lowercased title
(length ≥ 3, stopwords dropped, then normalized). -/
def extractTitleWords (title : String) : List String :=
  let koreanWords := (runsOf isHangulChar title.data).map String.mk
  let koreanKept :=
    (koreanWords.filter
      (fun w => decide (2 ≤ w.length ∧ w ∉ STOPWORDS_KR))).map normalize_keyword
  let englishWords := (runsOf isLatinChar (pyLower title).data).map String.mk
  let englishKept :=
    (englishWords.filter
      (fun w => decide (3 ≤ w.length ∧ w ∉ STOPWORDS_EN))).map normalize_keyword
  koreanKept ++ englishKept

/-- `extract_keywords_simple(titles, limit)`. -/
def extract_keywords_simple (titles : List String) (limit : Nat) :
    List (String × Nat) :=
  mostCommon limit (titles.flatMap extractTitleWords)

/-- `infer_categories(keywords)`: a category is detected when any of its
keywords appears verbatim among the lowercased extracted keywords. -/
def infer_categories (keywords : List (String × Nat)) : List String :=
  let keywordSet := keywords.map (fun p => pyLower p.1)
  let detected := CATEGORY_KEYWORDS.filterMap
    (fun p => if p.2.any (fun cw => decide (cw ∈ keywordSet)) then some p.1
              else none)
  if detected = [] then ["general"] else detected

structure TopicAnalysis where
  keywords : List (String × Nat)
  /-- `language_breakdown["korean"]`. -/
  korean_count : Nat
  /-- `language_breakdown["english"]`. -/
  english_count : Nat
  categories : List String
  deriving DecidableEq

/-- `analyze_topics(entries, limit)`.  The optional KoNLPy path silently
falls back to `extract_keywords_simple` when the library is unavailable;
only the fallback path is modelled. -/
def analyze_topics (entries : List WatchHistoryEntry) (limit : Nat) :
    TopicAnalysis :=
  let titles := entries.map WatchHistoryEntry.clean_title
  let korean_count := titles.countP (fun t => hasRun isHangulChar t)
  let english_only_count :=
    titles.countP (fun t => hasRun isLatinChar t && !hasRun isHangulChar t)
  let keywords := extract_keywords_simple titles limit
  { keywords := keywords
    korean_count := korean_count
    english_count := english_only_count
    categories := infer_categories keywords }

/-! ## Supporting lemmas -/

theorem charShift_toNat (c : Char) (h65 : 65 ≤ c.toNat) (h90 : c.toNat ≤ 90) :
    (Char.ofNat (c.toNat + 32)).toNat = c.toNat + 32 := by
  have hval : (c.toNat + 32).isValidChar := Or.inl (by omega)
  rw [Char.ofNat, dif_pos hval]
  simp [Char.ofNatAux, Char.toNat, UInt32.ofNat', UInt32.toNat,
    BitVec.toNat_ofNatLt]

theorem pyLowerChar_idem (c : Char) :
    pyLowerChar (pyLowerChar c) = pyLowerChar c := by
  by_cases h : 65 ≤ c.toNat ∧ c.toNat ≤ 90
  · have hinner : pyLowerChar c = Char.ofNat (c.toNat + 32) := by
      rw [pyLowerChar, if_pos h]
    rw [hinner, pyLowerChar, if_neg]
    intro hc
    rw [charShift_toNat c h.1 h.2] at hc
    omega
  · have hinner : pyLowerChar c = c := by
      rw [pyLowerChar, if_neg h]
    rw [hinner, pyLowerChar, if_neg h]

theorem pyLower_idem (s : String) : pyLower (pyLower s) = pyLower s := by
  have hmap : s.data.map pyLowerChar
      = (s.data.map pyLowerChar).map pyLowerChar := by
    rw [List.map_map]
    have hfun : pyLowerChar ∘ pyLowerChar = pyLowerChar := funext pyLowerChar_idem
    rw [hfun]
  rw [pyLower, pyLower]
  exact congrArg String.mk hmap.symm

theorem synonym_values_fixed :
    ∀ p ∈ SYNONYM_LOOKUP, normalize_keyword p.2 = p.2 := by decide

theorem countP_and_not_le {α : Type} (l : List α) (p q : α → Bool) :
    l.countP p + l.countP (fun a => q a && !p a) ≤ l.length := by
  induction l with
  | nil => simp
  | cons x xs ih =>
    by_cases hp : p x <;> by_cases hq : q x <;>
      simp [List.countP_cons, hp, hq] <;> omega

/-! ## Claims about topic extraction -/

/-- C7: keyword normalization is idempotent; for every string `w`,
`normalize(normalize(w)) = normalize(w)`.  Every canonical value of the
synonym table is itself a lowercase fixed point of the table, and
lowercasing is idempotent when no entry applies. -/
theorem normalize_keyword_idem (w : String) :
    normalize_keyword (normalize_keyword w) = normalize_keyword w := by
  cases h : assocLookup (pyLower w) SYNONYM_LOOKUP with
  | some v =>
    have h1 : normalize_keyword w = v := by simp [normalize_keyword, h]
    rw [h1]
    exact synonym_values_fixed (pyLower w, v) (assocLookup_mem h)
  | none =>
    have h1 : normalize_keyword w = pyLower w := by simp [normalize_keyword, h]
    rw [h1]
    simp [normalize_keyword, pyLower_idem, h]

/-- C2 counterexample: on the titles `["Lo-fi beats to study to",
"재즈 piano music", "K-pop hits 2024"]` the simple extraction yields
neither "lofi" nor "kpop": the Latin pattern `[a-zA-Z]+` splits "lo-fi"
into "lo"/"fi" (both under the 3-character minimum) and "k-pop" into
"k"/"pop", and "pop" normalizes to itself, not to "kpop". -/
theorem extract_keywords_scenario_cex :
    "lofi" ∉ (extract_keywords_simple
        ["Lo-fi beats to study to", "재즈 piano music", "K-pop hits 2024"]
        20).map Prod.fst ∧
    "kpop" ∉ (extract_keywords_simple
        ["Lo-fi beats to study to", "재즈 piano music", "K-pop hits 2024"]
        20).map Prod.fst := by decide

/-- C2 amended: on those three titles the extraction yields exactly
`beats, study, jazz, piano, pop, hits` (each once, in first-encountered
order); "재즈" is mapped to the canonical "jazz" by the synonym table,
while "lofi" and "kpop" are not produced because hyphenated forms are
split by the Latin-letter pattern before normalization. -/
theorem extract_keywords_scenario_amended :
    extract_keywords_simple
        ["Lo-fi beats to study to", "재즈 piano music", "K-pop hits 2024"] 20
      = [("beats", 1), ("study", 1), ("jazz", 1), ("piano", 1), ("pop", 1),
         ("hits", 1)] ∧
    "jazz" ∈ (extract_keywords_simple
        ["Lo-fi beats to study to", "재즈 piano music", "K-pop hits 2024"]
        20).map Prod.fst := by decide

/-- C8: `analyze_topics` computes the language breakdown as two independent
counters: the "korean" bucket counts entries whose clean title contains a
Hangul-block character, the "english" bucket counts entries whose clean
title matches the Latin pattern and contains no Hangul character; hence an
entry with both scripts lands only in the first bucket, one with neither
script in neither bucket, and the two buckets together never exceed the
number of entries. -/
theorem analyze_topics_language_breakdown (entries : List WatchHistoryEntry)
    (limit : Nat) :
    (analyze_topics entries limit).korean_count
        = entries.countP (fun e => hasRun isHangulChar e.clean_title) ∧
    (analyze_topics entries limit).english_count
        = entries.countP (fun e =>
            hasRun isLatinChar e.clean_title
              && !hasRun isHangulChar e.clean_title) ∧
    (analyze_topics entries limit).korean_count
        + (analyze_topics entries limit).english_count ≤ entries.length := by
  refine ⟨?_, ?_, ?_⟩
  · simp [analyze_topics, List.countP_map]
    rfl
  · simp [analyze_topics, List.countP_map]
    rfl
  · have h := countP_and_not_le entries
      (fun e => hasRun isHangulChar e.clean_title)
      (fun e => hasRun isLatinChar e.clean_title)
    simp only [analyze_topics, List.countP_map]
    exact h

/-! ## Statistics engine (`mirror_mcp/analyzers/statistics.py`)

Python floats here only ever hold exact ratios of the integers computed
from the data, so they are modelled as `ℚ`.  `round(x, k)` is modelled via
Mathlib's `round` (nearest integer); Python's tie-breaking and binary
representation differences are immaterial to every claim proved below.
`math.log2` is an external library function and is taken as an explicit
parameter. -/

inductive AnalyzerError where
  | emptyInput
  deriving DecidableEq

/-- `round(q, k)` to `k` decimal places. -/
def pyRound (k : Nat) (q : ℚ) : ℚ := (round (q * 10 ^ k) : ℚ) / 10 ^ k

/-- `[e.channel_name for e in entries if e.channel_name]`: Python truthiness
drops both `None` and the empty string. -/
def channelsOf (entries : List WatchHistoryEntry) : List String :=
  entries.filterMap (fun e =>
    match e.channel_name with
    | some s => if s = "" then none else some s
    | none => none)

/-- `min(timestamps)`: first minimum (only used on non-empty input; the
empty case is unreachable behind the emptiness guard). -/
def pyMinTime : List PyDateTime → PyDateTime
  | [] => ⟨0, ""⟩
  | x :: xs => xs.foldl (fun a b => if b.epochSec < a.epochSec then b else a) x

/-- `max(timestamps)`: first maximum. -/
def pyMaxTime : List PyDateTime → PyDateTime
  | [] => ⟨0, ""⟩
  | x :: xs => xs.foldl (fun a b => if a.epochSec < b.epochSec then b else a) x

/-- `x or 1` on a non-negative day count. -/
def orOne (n : Nat) : Nat := if n = 0 then 1 else n

structure WatchStatistics where
  total_videos : Nat
  unique_channels : Nat
  date_range_start : PyDateTime
  date_range_end : PyDateTime
  top_channels : List (String × Nat)
  videos_per_day_avg : ℚ
  deriving DecidableEq

/-- `analyze_watch_statistics(entries)`; the `ValueError` on empty input is
the EmptyInput failure.  `(date_end - date_start).days` is the whole-day
floor of the timestamp difference, i.e. Nat division of the second span
by 86400. -/
def analyze_watch_statistics (entries : List WatchHistoryEntry) :
    Except AnalyzerError WatchStatistics :=
  if entries = [] then .error .emptyInput
  else
    let channels := channelsOf entries
    let channel_counts := mostCommon 20 channels
    let timestamps := entries.map (fun e => e.time)
    let date_start := pyMinTime timestamps
    let date_end := pyMaxTime timestamps
    let days_span := orOne ((date_end.epochSec - date_start.epochSec) / 86400)
    let videos_per_day : ℚ := (entries.length : ℚ) / (days_span : ℚ)
    .ok { total_videos := entries.length
          unique_channels := (uniqueKeys channels).length
          date_range_start := date_start
          date_range_end := date_end
          top_channels := channel_counts
          videos_per_day_avg := pyRound 2 videos_per_day }

structure DiversityScore where
  overall_score : ℚ
  channel_entropy : ℚ
  top_channel_concentration : ℚ
  unique_ratio : ℚ
  interpretation : String
  deriving DecidableEq

/-- The four fixed interpretation bands, tested on the clamped score. -/
def diversityInterp (score : ℚ) : String :=
  if 70 ≤ score then "Highly diverse - you explore many different channels"
  else if 50 ≤ score then
    "Moderately diverse - you have favorites but still explore"
  else if 30 ≤ score then
    "Focused viewer - you stick to your preferred channels"
  else "Very focused - you primarily watch a few channels"

/-- `calculate_diversity_score(entries)` with `math.log2` passed in as the
parameter `log2`. -/
def calculate_diversity_score (log2 : ℚ → ℚ)
    (entries : List WatchHistoryEntry) : DiversityScore :=
  if entries = [] then ⟨0, 0, 0, 0, "No data to analyze"⟩
  else
    let channels := channelsOf entries
    if channels = [] then ⟨0, 0, 0, 0, "No channel data available"⟩
    else
      let channel_counts := tally channels
      let total := channels.length
      let unique_channels := channel_counts.length
      let entropy : ℚ :=
        -((channel_counts.map (fun kc =>
            let p : ℚ := (kc.2 : ℚ) / (total : ℚ)
            if 0 < p then p * log2 p else 0)).sum)
      let max_entropy : ℚ := if 1 < total then log2 (total : ℚ) else 1
      let normalized_entropy : ℚ :=
        if 0 < max_entropy then entropy / max_entropy * 100 else 0
      let top_5_counts := (((sortCountDesc channel_counts).take 5).map
        Prod.snd).sum
      let top_concentration : ℚ :=
        if 0 < total then (top_5_counts : ℚ) / (total : ℚ) * 100 else 0
      let unique_ratio : ℚ :=
        if 0 < total then (unique_channels : ℚ) / (total : ℚ) else 0
      let overall_raw := normalized_entropy * (1/2)
        + (100 - top_concentration) * (3/10) + unique_ratio * 100 * (1/5)
      let overall_score := min 100 (max 0 overall_raw)
      { overall_score := pyRound 1 overall_score
        channel_entropy := pyRound 3 entropy
        top_channel_concentration := pyRound 1 top_concentration
        unique_ratio := pyRound 3 unique_ratio
        interpretation := diversityInterp overall_score }

/-! ## Lemmas about the counter model -/

theorem mem_uniqueKeysAux_not_seen {α : Type} [DecidableEq α] :
    ∀ (xs seen : List α) (k : α), k ∈ uniqueKeysAux xs seen → k ∉ seen := by
  intro xs
  induction xs with
  | nil => intro seen k hk; simp [uniqueKeysAux] at hk
  | cons x xs ih =>
    intro seen k hk
    simp only [uniqueKeysAux] at hk
    by_cases hx : x ∈ seen
    · rw [if_pos hx] at hk
      exact ih seen k hk
    · rw [if_neg hx] at hk
      rcases List.mem_cons.mp hk with h1 | h2
      · subst h1; exact hx
      · intro hs
        exact ih (x :: seen) k h2 (List.mem_cons_of_mem _ hs)

theorem uniqueKeysAux_length_le {α : Type} [DecidableEq α] :
    ∀ (xs seen : List α), (uniqueKeysAux xs seen).length ≤ xs.length := by
  intro xs
  induction xs with
  | nil => intro seen; simp [uniqueKeysAux]
  | cons x xs ih =>
    intro seen
    simp only [uniqueKeysAux]
    by_cases hx : x ∈ seen
    · rw [if_pos hx]
      exact le_trans (ih seen) (Nat.le_succ _)
    · rw [if_neg hx]
      simpa using ih (x :: seen)

theorem countP_notSeen_cons {α : Type} [DecidableEq α] (x : α) :
    ∀ (xs seen : List α), x ∉ seen →
      xs.countP (fun y => decide (y ∉ seen))
        = xs.count x + xs.countP (fun y => decide (y ∉ x :: seen)) := by
  intro xs
  induction xs with
  | nil => intro seen _; simp
  | cons y ys ih =>
    intro seen hx
    have hrec := ih seen hx
    rw [List.countP_cons, List.countP_cons, List.count_cons]
    have t1 : (if (true = true) then (1 : Nat) else 0) = 1 := rfl
    have t0 : (if (false = true) then (1 : Nat) else 0) = 0 := rfl
    by_cases hyx : y = x
    · subst hyx
      have h1 : (decide (y ∉ seen)) = true := by simp [hx]
      have h2 : (decide (y ∉ y :: seen)) = false := by simp
      have h3 : (y == y) = true := by simp
      rw [h1, h2, h3, t1, t0]
      omega
    · have h3 : (y == x) = false := by simp [hyx]
      rw [h3]
      by_cases hys : y ∈ seen
      · have h1 : (decide (y ∉ seen)) = false := by simp [hys]
        have h2 : (decide (y ∉ x :: seen)) = false := by
          simp [List.mem_cons, hys]
        rw [h1, h2, t0]
        omega
      · have h1 : (decide (y ∉ seen)) = true := by simp [hys]
        have h2 : (decide (y ∉ x :: seen)) = true := by
          simp [List.mem_cons, hys, hyx]
        rw [h1, h2, t1, t0]
        omega

theorem uniqueKeysAux_count_sum {α : Type} [DecidableEq α] :
    ∀ (xs seen : List α),
      ((uniqueKeysAux xs seen).map (fun a => xs.count a)).sum
        = xs.countP (fun y => decide (y ∉ seen)) := by
  intro xs
  induction xs with
  | nil => intro seen; simp [uniqueKeysAux]
  | cons x xs ih =>
    intro seen
    simp only [uniqueKeysAux]
    by_cases hx : x ∈ seen
    · rw [if_pos hx]
      have hne : ∀ k ∈ uniqueKeysAux xs seen, (x :: xs).count k = xs.count k := by
        intro k hk
        have hkx : k ≠ x :=
          fun he => mem_uniqueKeysAux_not_seen xs seen k hk (he ▸ hx)
        rw [List.count_cons]
        have hxk : (x == k) = false := by
          rw [beq_eq_false_iff_ne]
          exact Ne.symm hkx
        rw [hxk]
        simp
      rw [List.map_congr_left hne, ih seen]
      rw [List.countP_cons]
      have hxd : (decide (x ∉ seen)) = false := by simp [hx]
      rw [hxd]
      simp
    · rw [if_neg hx]
      have hne : ∀ k ∈ uniqueKeysAux xs (x :: seen),
          (x :: xs).count k = xs.count k := by
        intro k hk
        have hkx : k ≠ x := fun he =>
          mem_uniqueKeysAux_not_seen xs (x :: seen) k hk
            (he ▸ List.mem_cons_self x seen)
        rw [List.count_cons]
        have hxk : (x == k) = false := by
          rw [beq_eq_false_iff_ne]
          exact Ne.symm hkx
        rw [hxk]
        simp
      simp only [List.map_cons, List.sum_cons]
      rw [List.map_congr_left hne, ih (x :: seen)]
      rw [List.countP_cons]
      have hxd : (decide (x ∉ seen)) = true := by simp [hx]
      rw [hxd]
      rw [countP_notSeen_cons x xs seen hx]
      rw [List.count_cons]
      have : (x == x) = true := by simp
      rw [this]
      simp only [if_true]
      omega

/-- The multiplicities recorded by `tally` sum to the length of the list. -/
theorem tally_snd_sum {α : Type} [DecidableEq α] (xs : List α) :
    ((tally xs).map Prod.snd).sum = xs.length := by
  rw [tally, List.map_map]
  have h := uniqueKeysAux_count_sum xs ([] : List α)
  have hcomp : (Prod.snd ∘ fun a => (a, xs.count a)) = fun a => xs.count a := rfl
  rw [hcomp, uniqueKeys]
  rw [h]
  simp [List.countP_eq_length]

theorem tally_length {α : Type} [DecidableEq α] (xs : List α) :
    (tally xs).length = (uniqueKeys xs).length := by
  simp [tally]

theorem insertCountDesc_perm {α : Type} (x : α × Nat) :
    ∀ l : List (α × Nat), List.Perm (insertCountDesc x l) (x :: l) := by
  intro l
  induction l with
  | nil => rfl
  | cons y ys ih =>
    simp only [insertCountDesc]
    by_cases h : x.2 < y.2
    · rw [if_pos h]
      exact List.Perm.trans (List.Perm.cons y ih) (List.Perm.swap x y ys)
    · rw [if_neg h]

theorem sortCountDesc_perm {α : Type} :
    ∀ l : List (α × Nat), List.Perm (sortCountDesc l) l := by
  intro l
  induction l with
  | nil => rfl
  | cons x xs ih =>
    exact List.Perm.trans (insertCountDesc_perm x (sortCountDesc xs))
      (List.Perm.cons x ih)

theorem take_map_snd_sum_le {α : Type} (l : List (α × Nat)) (k : Nat) :
    ((l.take k).map Prod.snd).sum ≤ (l.map Prod.snd).sum := by
  conv_rhs => rw [← List.take_append_drop k l]
  rw [List.map_append, List.sum_append]
  exact Nat.le_add_right _ _

/-- The top-5 counts never exceed the total count. -/
theorem top5_le_total {α : Type} [DecidableEq α] (xs : List α) :
    (((sortCountDesc (tally xs)).take 5).map Prod.snd).sum ≤ xs.length := by
  have h1 := take_map_snd_sum_le (sortCountDesc (tally xs)) 5
  have h2 : ((sortCountDesc (tally xs)).map Prod.snd).sum
      = ((tally xs).map Prod.snd).sum :=
    List.Perm.sum_eq (List.Perm.map Prod.snd (sortCountDesc_perm (tally xs)))
  rw [h2, tally_snd_sum] at h1
  exact h1

theorem mostCommon_length {α : Type} [DecidableEq α] (k : Nat) (xs : List α) :
    (mostCommon k xs).length = min k (uniqueKeys xs).length := by
  rw [mostCommon, List.length_take]
  congr 1
  rw [(sortCountDesc_perm (tally xs)).length_eq]
  exact tally_length xs

/-! ## Rounding lemmas -/

theorem round_mono_rat {x y : ℚ} (h : x ≤ y) : round x ≤ round y := by
  rw [round_eq, round_eq]
  exact Int.floor_mono (by linarith)

theorem pyRound_nonneg {k : Nat} {x : ℚ} (hx : 0 ≤ x) : 0 ≤ pyRound k x := by
  rw [pyRound]
  apply div_nonneg _ (by positivity)
  have h0 : (0 : ℤ) ≤ round (x * 10 ^ k) := by
    have := round_mono_rat (x := 0) (y := x * 10 ^ k) (by positivity)
    simpa using this
  exact_mod_cast h0

theorem pyRound_le_nat {k m : Nat} {x : ℚ} (hx : x ≤ (m : ℚ)) :
    pyRound k x ≤ (m : ℚ) := by
  rw [pyRound]
  rw [div_le_iff₀ (by positivity)]
  have h1 : round (x * 10 ^ k) ≤ round ((m : ℚ) * 10 ^ k) :=
    round_mono_rat (by
      have hpow : (0 : ℚ) < 10 ^ k := by positivity
      exact mul_le_mul_of_nonneg_right hx (le_of_lt hpow))
  have h2 : round ((m : ℚ) * 10 ^ k) = ((m * 10 ^ k : ℕ) : ℤ) := by
    rw [show ((m : ℚ) * 10 ^ k) = ((m * 10 ^ k : ℕ) : ℚ) by push_cast; ring]
    exact round_natCast _
  rw [h2] at h1
  calc (round (x * 10 ^ k) : ℚ) ≤ ((m * 10 ^ k : ℕ) : ℚ) := by exact_mod_cast h1
    _ = (m : ℚ) * 10 ^ k := by push_cast; ring

/-! ## Claims about the statistics engine -/

theorem orOne_eq_max (n : Nat) : orOne n = max 1 n := by
  rw [orOne]
  by_cases h : n = 0
  · subst h; rfl
  · rw [if_neg h]
    omega

/-- C4: `computeStatistics` on an empty collection fails with EmptyInput;
on any single entry `videos_per_day_avg` is exactly 1; and in general the
average is the entry count divided by the day-span
`max(1, whole-day difference of the extreme timestamps)`. -/
theorem statistics_avg_per_day :
    analyze_watch_statistics [] = .error .emptyInput ∧
    (∀ e : WatchHistoryEntry,
      (analyze_watch_statistics [e]).map (fun s => s.videos_per_day_avg)
        = .ok 1) ∧
    (∀ entries : List WatchHistoryEntry, entries ≠ [] →
      (analyze_watch_statistics entries).map (fun s => s.videos_per_day_avg)
        = .ok (pyRound 2 ((entries.length : ℚ) /
            ((max 1 (((pyMaxTime (entries.map (fun e => e.time))).epochSec
              - (pyMinTime (entries.map (fun e => e.time))).epochSec)
                / 86400) : Nat) : ℚ)))) := by
  have hgen : ∀ entries : List WatchHistoryEntry, entries ≠ [] →
      (analyze_watch_statistics entries).map (fun s => s.videos_per_day_avg)
        = .ok (pyRound 2 ((entries.length : ℚ) /
            ((max 1 (((pyMaxTime (entries.map (fun e => e.time))).epochSec
              - (pyMinTime (entries.map (fun e => e.time))).epochSec)
                / 86400) : Nat) : ℚ))) := by
    intro entries h
    rw [analyze_watch_statistics, if_neg h]
    simp only [Except.map]
    rw [orOne_eq_max]
  refine ⟨rfl, ?_, hgen⟩
  intro e
  rw [hgen [e] (by simp)]
  have hsub : (pyMaxTime ([e].map (fun x => x.time))).epochSec
      - (pyMinTime ([e].map (fun x => x.time))).epochSec = 0 := by
    simp [pyMaxTime, pyMinTime]
  rw [hsub]
  norm_num [pyRound, round_eq]

/-- C5: for every non-empty collection (and independently of the behaviour
of the external `math.log2`), `computeDiversity` returns an overall score
and a top-channel concentration in `[0, 100]` and a unique ratio in
`[0, 1]`.  The score is clamped before rounding; the concentration is
bounded because the top-5 counts are a sub-sum of all counts; the ratio is
bounded because there are at most as many distinct channels as channel
mentions. -/
theorem diversity_scores_bounded (log2 : ℚ → ℚ)
    (entries : List WatchHistoryEntry) (h : entries ≠ []) :
    (0 ≤ (calculate_diversity_score log2 entries).overall_score ∧
      (calculate_diversity_score log2 entries).overall_score ≤ 100) ∧
    (0 ≤ (calculate_diversity_score log2 entries).top_channel_concentration ∧
      (calculate_diversity_score log2 entries).top_channel_concentration
        ≤ 100) ∧
    (0 ≤ (calculate_diversity_score log2 entries).unique_ratio ∧
      (calculate_diversity_score log2 entries).unique_ratio ≤ 1) := by
  rw [calculate_diversity_score, if_neg h]
  by_cases hch : channelsOf entries = []
  · rw [if_pos hch]
    norm_num
  · rw [if_neg hch]
    simp only
    have htotal : 0 < (channelsOf entries).length := List.length_pos.mpr hch
    have htotQ : (0 : ℚ) < ((channelsOf entries).length : ℚ) := by
      exact_mod_cast htotal
    set conc : ℚ := if 0 < (channelsOf entries).length then
        (((((sortCountDesc (tally (channelsOf entries))).take 5).map
          Prod.snd).sum : ℕ) : ℚ) / (((channelsOf entries).length : ℕ) : ℚ)
          * 100
      else 0 with hconc
    have hconc_bounds : 0 ≤ conc ∧ conc ≤ 100 := by
      rw [hconc, if_pos htotal]
      constructor
      · positivity
      · have h5 := top5_le_total (channelsOf entries)
        have h5Q : ((((sortCountDesc (tally (channelsOf entries))).take
            5).map Prod.snd).sum : ℚ)
            ≤ (((channelsOf entries).length : ℕ) : ℚ) := by exact_mod_cast h5
        have hdiv : ((((sortCountDesc (tally (channelsOf entries))).take
            5).map Prod.snd).sum : ℚ)
            / (((channelsOf entries).length : ℕ) : ℚ) ≤ 1 :=
          (div_le_one htotQ).mpr h5Q
        calc _ ≤ (1 : ℚ) * 100 := by
              exact mul_le_mul_of_nonneg_right hdiv (by norm_num)
          _ = 100 := by norm_num
    set ur : ℚ := if 0 < (channelsOf entries).length then
        (((tally (channelsOf entries)).length : ℕ) : ℚ)
          / (((channelsOf entries).length : ℕ) : ℚ)
      else 0 with hur
    have hur_bounds : 0 ≤ ur ∧ ur ≤ 1 := by
      rw [hur, if_pos htotal]
      constructor
      · positivity
      · apply (div_le_one htotQ).mpr
        have hle : (tally (channelsOf entries)).length
            ≤ (channelsOf entries).length := by
          rw [tally_length]
          exact uniqueKeysAux_length_le _ _
        exact_mod_cast hle
    refine ⟨?_, ?_, ?_⟩
    · constructor
      · exact pyRound_nonneg (le_min (by norm_num) (le_max_left 0 _))
      · exact pyRound_le_nat (m := 100)
          (by exact_mod_cast min_le_left (100 : ℚ) _)
    · constructor
      · exact pyRound_nonneg hconc_bounds.1
      · exact pyRound_le_nat (m := 100) hconc_bounds.2
    · constructor
      · exact pyRound_nonneg hur_bounds.1
      · exact pyRound_le_nat (m := 1) (by exact_mod_cast hur_bounds.2)

/-- C10: for every non-empty collection, the `top_channels` ranking holds
exactly `min(20, number of distinct non-empty channel names)` pairs —
channels beyond the 20 most frequent are omitted. -/
theorem top_channels_ranking_length (entries : List WatchHistoryEntry)
    (h : entries ≠ []) :
    (analyze_watch_statistics entries).map (fun s => s.top_channels.length)
      = .ok (min 20 (uniqueKeys (channelsOf entries)).length) := by
  rw [analyze_watch_statistics, if_neg h]
  rw [Except.map]
  rw [mostCommon_length]

/-! ## Phase detection (`mirror_mcp/analyzers/time_patterns.py`)

`detect_watching_phases` groups time-sorted entries by the calendar-week
key `strftime("%Y-W%W")`, computes a dominant category per week, and scans
consecutive weeks for phases.  The human-readable month label
`strptime(week + "-1", "%Y-W%W-%w").strftime("%Y.%m")` is a pure
standard-library computation on the week key; it is taken as the explicit
parameter `fmtMonth`, so every theorem quantifies over it. -/

def PHASE_NAMES : List (String × String) :=
  [("music", "Music Exploration"), ("gaming", "Gaming Focus"),
   ("tech", "Tech Learning"), ("education", "Study Period"),
   ("entertainment", "Entertainment Binge"), ("general", "Mixed Viewing")]

structure WatchingPhase where
  period : String
  phase_name : String
  dominant_categories : List String
  video_count : Nat
  description : String
  deriving DecidableEq

/-- The categories one lowercased clean title increments, in table order
(`kw in title` is substring containment here, unlike `infer_categories`). -/
def categoryHits (titleLower : String) : List String :=
  CATEGORY_KEYWORDS.filterMap (fun p =>
    if p.2.any (fun kw => pyContains titleLower kw) then some p.1 else none)

/-- Dominant category of one week: the most frequent category hit over the
week's titles (ties to the first-inserted key), defaulting to "general"
when no title hits any category keyword. -/
def weekDominant (weekEntries : List WatchHistoryEntry) : String :=
  let hits := weekEntries.flatMap
    (fun e => categoryHits (pyLower e.clean_title))
  match mostCommon 1 hits with
  | (c, _) :: _ => c
  | [] => "general"

/-- The `weekly_categories` list: week keys in sorted order, each with its
dominant category and entry count.  The groups of the insertion-ordered
`weekly_data` dict are recovered by filtering the time-sorted entries. -/
def detectWeeklyCategories (entries : List WatchHistoryEntry) :
    List (String × String × Nat) :=
  let sortedEntries := pySorted
    (fun a b => decide (a.time.epochSec ≤ b.time.epochSec)) entries
  let keys := uniqueKeys (sortedEntries.map (fun e => e.time.weekKey))
  let sortedKeys := pySorted (fun a b => !(pyStrLt b a)) keys
  sortedKeys.map (fun k =>
    let wk := sortedEntries.filter (fun e => decide (e.time.weekKey = k))
    (k, weekDominant wk, wk.length))

def mkPhase (fmtMonth : String → String) (startKey endKey cat : String)
    (cnt weeks : Nat) : WatchingPhase :=
  let pn := (assocLookup cat PHASE_NAMES).getD "Mixed Viewing"
  { period := fmtMonth startKey ++ " - " ++ fmtMonth endKey
    phase_name := pn
    dominant_categories := [cat]
    video_count := cnt
    description := toString weeks ++ " weeks of " ++ pyLower pn
      ++ " (" ++ toString cnt ++ " videos)" }

/-- The scan loop of `detect_watching_phases`, processing
`weekly_categories[1:]` with the running phase state
(start week, previous week, current category, count, week run). -/
def phasesLoop (fmtMonth : String → String)
    (startKey prevKey curCat : String) (cnt weeks : Nat) :
    List (String × String × Nat) → List WatchingPhase
  | [] => []
  | (wk, cat, c) :: rest =>
    if cat ≠ curCat ∨ rest = [] then
      (if 2 ≤ weeks then [mkPhase fmtMonth startKey prevKey curCat cnt weeks]
       else [])
        ++ phasesLoop fmtMonth wk wk cat c 1 rest
    else phasesLoop fmtMonth startKey wk curCat (cnt + c) (weeks + 1) rest

def runPhases (fmtMonth : String → String) :
    List (String × String × Nat) → List WatchingPhase
  | [] => []
  | (k0, c0, n0) :: rest => phasesLoop fmtMonth k0 k0 c0 n0 1 rest

/-- `detect_watching_phases(entries, min_phase_days)`; the `min_phase_days`
parameter is accepted but never read by the body. -/
def detect_watching_phases (fmtMonth : String → String)
    (entries : List WatchHistoryEntry) (minPhaseDays : Nat) :
    List WatchingPhase :=
  if entries = [] then []
  else runPhases fmtMonth (detectWeeklyCategories entries)

/-! ## Lemmas about the phase scan -/

theorem insertSorted_perm {α : Type} (le : α → α → Bool) (x : α) :
    ∀ l : List α, List.Perm (insertSorted le x l) (x :: l) := by
  intro l
  induction l with
  | nil => rfl
  | cons y ys ih =>
    simp only [insertSorted]
    by_cases h : le x y = true
    · rw [if_pos h]
    · rw [if_neg h]
      exact List.Perm.trans (List.Perm.cons y ih) (List.Perm.swap x y ys)

theorem pySorted_perm {α : Type} (le : α → α → Bool) :
    ∀ l : List α, List.Perm (pySorted le l) l := by
  intro l
  induction l with
  | nil => rfl
  | cons x xs ih =>
    exact List.Perm.trans (insertSorted_perm le x (pySorted le xs))
      (List.Perm.cons x ih)

theorem uniqueKeysAux_all_seen {α : Type} [DecidableEq α] :
    ∀ (l seen : List α), (∀ x ∈ l, x ∈ seen) → uniqueKeysAux l seen = [] := by
  intro l
  induction l with
  | nil => intro seen _; rfl
  | cons x xs ih =>
    intro seen hall
    rw [uniqueKeysAux, if_pos (hall x (List.mem_cons_self x xs))]
    exact ih seen (fun y hy => hall y (List.mem_cons_of_mem x hy))

theorem uniqueKeys_const {α : Type} [DecidableEq α] (k : α) :
    ∀ l : List α, l ≠ [] → (∀ x ∈ l, x = k) → uniqueKeys l = [k] := by
  intro l
  cases l with
  | nil => intro h _; exact absurd rfl h
  | cons x xs =>
    intro _ hall
    have hx : x = k := hall x (List.mem_cons_self x xs)
    subst hx
    rw [uniqueKeys, uniqueKeysAux, if_neg (List.not_mem_nil x)]
    rw [uniqueKeysAux_all_seen xs [x] (fun y hy => by
      have : y = x := hall y (List.mem_cons_of_mem x hy)
      simp [this])]

/-! ## Claims about phase detection -/

/-- C3: `detectWatchingPhases` returns the same result for any two values
of the (dead) `minPhaseDays` parameter — the enforced minimum run length is
the 2-consecutive-week check — and entries confined to a single calendar
week always produce an empty phase list. -/
theorem detect_phases_minPhaseDays_dead (fmtMonth : String → String) :
    (∀ (entries : List WatchHistoryEntry) (d1 d2 : Nat),
      detect_watching_phases fmtMonth entries d1
        = detect_watching_phases fmtMonth entries d2) ∧
    (∀ entries : List WatchHistoryEntry,
      (∀ e1 ∈ entries, ∀ e2 ∈ entries,
        e1.time.weekKey = e2.time.weekKey) →
      ∀ d : Nat, detect_watching_phases fmtMonth entries d = []) := by
  constructor
  · intro entries d1 d2
    rfl
  · intro entries hweek d
    by_cases he : entries = []
    · rw [detect_watching_phases, if_pos he]
    · rw [detect_watching_phases, if_neg he]
      obtain ⟨e, es, rfl⟩ := List.exists_cons_of_ne_nil he
      set le := fun a b : WatchHistoryEntry =>
        decide (a.time.epochSec ≤ b.time.epochSec) with hle
      set k := e.time.weekKey with hk
      have hmem : ∀ x ∈ pySorted le (e :: es), x ∈ e :: es :=
        fun x hx => (pySorted_perm le (e :: es)).mem_iff.mp hx
      have hconst : ∀ s ∈ (pySorted le (e :: es)).map
          (fun x => x.time.weekKey), s = k := by
        intro s hs
        obtain ⟨x, hx, rfl⟩ := List.mem_map.mp hs
        exact hweek x (hmem x hx) e (List.mem_cons_self e es)
      have hne : (pySorted le (e :: es)).map
          (fun x => x.time.weekKey) ≠ [] := by
        intro hnil
        have := congrArg List.length hnil
        rw [List.length_map, (pySorted_perm le (e :: es)).length_eq] at this
        simp at this
      have huk : uniqueKeys ((pySorted le (e :: es)).map
          (fun x => x.time.weekKey)) = [k] :=
        uniqueKeys_const k _ hne hconst
      rw [detectWeeklyCategories]
      simp only [← hle, huk]
      simp [pySorted, insertSorted, runPhases, phasesLoop]

theorem phasesLoop_last_irrelevant (fmtMonth : String → String) :
    ∀ (rest : List (String × String × Nat)) (s p c : String) (cnt w : Nat)
      (l l' : String × String × Nat),
      phasesLoop fmtMonth s p c cnt w (rest ++ [l])
        = phasesLoop fmtMonth s p c cnt w (rest ++ [l']) := by
  intro rest
  induction rest with
  | nil =>
    intro s p c cnt w l l'
    obtain ⟨wk, cat, cc⟩ := l
    obtain ⟨wk', cat', cc'⟩ := l'
    simp only [List.nil_append, phasesLoop]
    simp
  | cons h rest ih =>
    intro s p c cnt w l l'
    obtain ⟨wk, cat, cc⟩ := h
    simp only [List.cons_append, phasesLoop, List.append_eq]
    have hne : rest ++ [l] ≠ [] := by simp
    have hne' : rest ++ [l'] ≠ [] := by simp
    by_cases hc : cat = c
    · rw [if_neg (by simp [hc, hne]), if_neg (by simp [hc, hne'])]
      exact ih s wk c (cnt + cc) (w + 1) l l'
    · rw [if_pos (Or.inl hc), if_pos (Or.inl hc)]
      rw [ih wk wk cat cc 1 l l']

/-- C9: the chronologically last calendar week never contributes to the
count or week run of any emitted phase: the scan's output is unchanged
under replacing the final week's tuple entirely, and a dataset whose
weekly summary is exactly two consecutive weeks with the same dominant
category emits no phase at all. -/
theorem last_week_never_counted (fmtMonth : String → String) :
    (∀ (wcs : List (String × String × Nat)) (l l' : String × String × Nat),
      runPhases fmtMonth (wcs ++ [l]) = runPhases fmtMonth (wcs ++ [l'])) ∧
    (∀ (entries : List WatchHistoryEntry) (d : Nat) (k1 k2 c : String)
      (n1 n2 : Nat),
      detectWeeklyCategories entries = [(k1, c, n1), (k2, c, n2)] →
      detect_watching_phases fmtMonth entries d = []) := by
  constructor
  · intro wcs l l'
    cases wcs with
    | nil =>
      obtain ⟨wk, cat, cc⟩ := l
      obtain ⟨wk', cat', cc'⟩ := l'
      simp [runPhases, phasesLoop]
    | cons h rest =>
      obtain ⟨k0, c0, n0⟩ := h
      simp only [List.cons_append, runPhases]
      exact phasesLoop_last_irrelevant fmtMonth rest k0 k0 c0 n0 1 l l'
  · intro entries d k1 k2 c n1 n2 hw
    by_cases he : entries = []
    · rw [detect_watching_phases, if_pos he]
    · rw [detect_watching_phases, if_neg he, hw]
      simp [runPhases, phasesLoop]

/-! ## Suno prompt generator (`mirror_mcp/generators/suno_prompt.py`)

Only the prompt-generation half is embedded (`build_taste_profile` feeds it
but the claims below quantify over arbitrary taste profiles). -/

structure TasteProfile where
  primary_genres : List String
  mood_keywords : List String
  energy_level : String
  tempo_preference : String
  time_context : String
  language_preference : String
  deriving DecidableEq

structure SunoPrompt where
  style_tags : String
  mood : String
  tempo_bpm : String
  instruments : String
  full_prompt : String
  deriving DecidableEq

def BPM_MAP : List (String × String) :=
  [("fast", "120-140 BPM"), ("moderate", "90-110 BPM"), ("slow", "60-85 BPM")]

def INSTRUMENT_MAP : List (String × String) :=
  [("Lo-fi", "vinyl crackle, mellow piano, soft drums"),
   ("Jazz", "piano, upright bass, brushed drums, saxophone"),
   ("Hip-hop", "808 bass, trap hi-hats, synth pads"),
   ("K-pop", "synth, punchy drums, bass drops, vocal layers"),
   ("EDM", "synth leads, side-chain compression, build-ups"),
   ("Indie", "acoustic guitar, soft synths, ambient pads"),
   ("Pop", "piano, guitar, modern drums, vocal harmonies"),
   ("Ballad", "piano, strings, soft percussion"),
   ("Rock", "electric guitar, bass, drums, distortion"),
   ("Classical", "orchestra, strings, piano"),
   ("Acoustic", "acoustic guitar, soft percussion, warm bass"),
   ("R&B", "smooth bass, Rhodes piano, soft drums"),
   ("Ambient", "synthesizer pads, reverb, atmospheric textures"),
   ("Electronic", "synthesizers, drum machines, bass"),
   ("Synthwave", "analog synths, arpeggios, retro drums"),
   ("Chill", "soft piano, ambient pads, gentle percussion"),
   ("Piano", "grand piano, soft strings, minimal percussion")]

/-- `", ".join(l)`. -/
def joinComma : List String → String
  | [] => ""
  | [x] => x
  | x :: xs => x ++ ", " ++ joinComma xs

/-- `s.split(", ")`: split on each non-overlapping occurrence of the
two-character separator, left to right (`acc` is the reversed current
piece). -/
def splitCS : List Char → List Char → List (List Char)
  | [], acc => [acc.reverse]
  | [c], acc => [(c :: acc).reverse]
  | c1 :: c2 :: rest, acc =>
    if c1 = ',' ∧ c2 = ' ' then acc.reverse :: splitCS rest []
    else splitCS (c2 :: rest) (c1 :: acc)

def pySplitCommaSpace (s : String) : List String :=
  (splitCS s.data []).map String.mk

/-- The two-tier truncation of the base prompt: drop instruments when over
195 characters, then drop tempo. -/
def computeFull (g m t i : String) : String :=
  let f0 := g ++ ", " ++ m ++ ", " ++ t ++ ", " ++ i
  let f1 := if 195 < f0.length then g ++ ", " ++ m ++ ", " ++ t else f0
  if 195 < f1.length then g ++ ", " ++ m else f1

/-- The single-tier truncation used by every variation: drop instruments
when over 195 characters (the variations never drop tempo). -/
def computeFullVar (g m t i : String) : String :=
  let f0 := g ++ ", " ++ m ++ ", " ++ t ++ ", " ++ i
  if 195 < f0.length then g ++ ", " ++ m ++ ", " ++ t else f0

/-- `generate_suno_prompt(taste_profile)`. -/
def generate_suno_prompt (tp : TasteProfile) : SunoPrompt :=
  let genres := joinComma tp.primary_genres
  let moods := joinComma (tp.mood_keywords.take 3)
  let tempo := (assocLookup tp.tempo_preference BPM_MAP).getD "100 BPM"
  let primary_genre := tp.primary_genres.headD "Pop"
  let instruments :=
    (assocLookup primary_genre INSTRUMENT_MAP).getD "piano, guitar, drums"
  { style_tags := genres
    mood := moods
    tempo_bpm := tempo
    instruments := instruments
    full_prompt := computeFull genres moods tempo instruments }

/-- The `new_tempo` of `_create_energy_variation`. -/
def energyTempo (tp : TasteProfile) : String :=
  if tp.energy_level = "low" then "90-110 BPM"
  else if tp.energy_level = "high" then "60-75 BPM"
  else "120-140 BPM"

/-- The `new_mood` of `_create_energy_variation` (the `energy_suffix`
variable of the source is dead and omitted). -/
def energyMood (tp : TasteProfile) : String :=
  if tp.energy_level = "low" then "uplifting, energetic"
  else if tp.energy_level = "high" then "calm, peaceful"
  else "powerful, intense"

def create_energy_variation (tp : TasteProfile) (base : SunoPrompt) :
    SunoPrompt :=
  { style_tags := base.style_tags
    mood := energyMood tp
    tempo_bpm := energyTempo tp
    instruments := base.instruments
    full_prompt := computeFullVar base.style_tags (energyMood tp)
      (energyTempo tp) base.instruments }

def MOOD_CONTRASTS : List (String × String) :=
  [("chill", "upbeat, happy"), ("energetic", "mellow, laid-back"),
   ("emotional", "confident, triumphant"), ("smooth", "edgy, bold"),
   ("dreamy", "grounded, rhythmic")]

/-- The `new_mood` of `_create_mood_variation`: contrast-map each comma
piece of the base mood, keep the first two. -/
def contrastMood (base : SunoPrompt) : String :=
  let current_moods := pySplitCommaSpace base.mood
  let new_moods := current_moods.map
    (fun m => (assocLookup (pyLower m) MOOD_CONTRASTS).getD m)
  joinComma (new_moods.take 2)

def create_mood_variation (tp : TasteProfile) (base : SunoPrompt) :
    SunoPrompt :=
  { style_tags := base.style_tags
    mood := contrastMood base
    tempo_bpm := base.tempo_bpm
    instruments := base.instruments
    full_prompt := computeFullVar base.style_tags (contrastMood base)
      base.tempo_bpm base.instruments }

def ALT_INSTRUMENTS : List (String × String) :=
  [("vinyl crackle, mellow piano, soft drums",
    "warm synth pads, gentle guitar, subtle percussion"),
   ("piano, upright bass, brushed drums, saxophone",
    "electric piano, acoustic bass, brushes, trumpet"),
   ("808 bass, trap hi-hats, synth pads",
    "deep bass, minimal drums, vocal chops"),
   ("synth, punchy drums, bass drops, vocal layers",
    "guitar riffs, live drums, bass groove, harmonies"),
   ("acoustic guitar, soft synths, ambient pads",
    "piano, strings, gentle electronic elements")]

def altInstruments (base : SunoPrompt) : String :=
  (assocLookup base.instruments ALT_INSTRUMENTS).getD
    "piano, soft synths, ambient textures, gentle percussion"

def create_instrument_variation (tp : TasteProfile) (base : SunoPrompt) :
    SunoPrompt :=
  { style_tags := base.style_tags
    mood := base.mood
    tempo_bpm := base.tempo_bpm
    instruments := altInstruments base
    full_prompt := computeFullVar base.style_tags base.mood base.tempo_bpm
      (altInstruments base) }

def GENRE_FUSIONS : List (String × (String × String)) :=
  [("Lo-fi", ("Lo-fi Jazz", "smooth, sophisticated")),
   ("Jazz", ("Jazz Fusion", "groovy, experimental")),
   ("Hip-hop", ("Hip-hop Soul", "soulful, rhythmic")),
   ("K-pop", ("K-pop R&B", "smooth, melodic")),
   ("Pop", ("Electropop", "modern, synth-driven")),
   ("Indie", ("Indie Electronic", "atmospheric, textured")),
   ("EDM", ("Future Bass", "melodic, emotional")),
   ("Rock", ("Alternative Rock", "atmospheric, dynamic")),
   ("Classical", ("Neoclassical", "cinematic, epic")),
   ("Ballad", ("Soul Ballad", "deep, expressive"))]

/-- The `(fusion_style, fusion_mood)` pair of
`_create_genre_fusion_variation`. -/
def fusionPair (base : SunoPrompt) : String × String :=
  let current_genres := pySplitCommaSpace base.style_tags
  let primary := current_genres.headD "Pop"
  (assocLookup primary GENRE_FUSIONS).getD (primary ++ " Fusion",
    "fresh, unique")

def create_genre_fusion_variation (tp : TasteProfile) (base : SunoPrompt) :
    SunoPrompt :=
  { style_tags := (fusionPair base).1
    mood := (fusionPair base).2
    tempo_bpm := base.tempo_bpm
    instruments := base.instruments
    full_prompt := computeFullVar (fusionPair base).1 (fusionPair base).2
      base.tempo_bpm base.instruments }

def variationFns : List (TasteProfile → SunoPrompt → SunoPrompt) :=
  [create_energy_variation, create_mood_variation,
   create_instrument_variation, create_genre_fusion_variation]

/-- `generate_multiple_prompts(taste_profile, count)`. -/
def generate_multiple_prompts (tp : TasteProfile) (count : Int) :
    List SunoPrompt :=
  let c := (max 1 (min 5 count)).toNat
  let base := generate_suno_prompt tp
  if c = 1 then [base]
  else base :: (variationFns.take (min c (variationFns.length + 1) - 1)).map
    (fun f => f tp base)

/-! ## Claims about the prompt generator -/

/-- The four-field composition `style, mood, tempo, instruments` of a
prompt's own fields. -/
def fullFour (p : SunoPrompt) : String :=
  p.style_tags ++ ", " ++ p.mood ++ ", " ++ p.tempo_bpm ++ ", "
    ++ p.instruments

/-- The composition with instruments dropped. -/
def fullThree (p : SunoPrompt) : String :=
  p.style_tags ++ ", " ++ p.mood ++ ", " ++ p.tempo_bpm

/-- The composition with instruments and tempo dropped. -/
def fullTwo (p : SunoPrompt) : String :=
  p.style_tags ++ ", " ++ p.mood

/-- Shape of the base prompt: the full prompt is one of the three
whole-field compositions of the prompt's own fields (never truncated
mid-field; instruments dropped first, then tempo), and it exceeds 195
characters exactly when its final fallback — the tempo-less composition —
already exceeds 195. -/
def basePromptShape (p : SunoPrompt) : Prop :=
  (p.full_prompt = fullFour p ∨ p.full_prompt = fullThree p
    ∨ p.full_prompt = fullTwo p) ∧
  (195 < p.full_prompt.length ↔ 195 < (fullTwo p).length)

/-- Shape of every variation prompt: the full prompt is the four-field or
the instrument-less composition of the prompt's own fields — tempo is
never dropped — and it exceeds 195 characters exactly when its final
fallback, the instrument-less composition, already exceeds 195. -/
def varPromptShape (p : SunoPrompt) : Prop :=
  (p.full_prompt = fullFour p ∨ p.full_prompt = fullThree p) ∧
  (195 < p.full_prompt.length ↔ 195 < (fullThree p).length)

theorem computeFull_spec (g m t i : String) :
    (computeFull g m t i = g ++ ", " ++ m ++ ", " ++ t ++ ", " ++ i
      ∨ computeFull g m t i = g ++ ", " ++ m ++ ", " ++ t
      ∨ computeFull g m t i = g ++ ", " ++ m) ∧
    (195 < (computeFull g m t i).length ↔ 195 < (g ++ ", " ++ m).length)
    := by
  have l2 : (g ++ ", " ++ m).length
      ≤ (g ++ ", " ++ m ++ ", " ++ t).length := by
    simp only [String.length_append]
    omega
  have l3 : (g ++ ", " ++ m ++ ", " ++ t).length
      ≤ (g ++ ", " ++ m ++ ", " ++ t ++ ", " ++ i).length := by
    simp only [String.length_append]
    omega
  rw [computeFull]
  by_cases h0 : 195 < (g ++ ", " ++ m ++ ", " ++ t ++ ", " ++ i).length
  · rw [if_pos h0]
    by_cases h1 : 195 < (g ++ ", " ++ m ++ ", " ++ t).length
    · rw [if_pos h1]
      exact ⟨Or.inr (Or.inr rfl), Iff.rfl⟩
    · rw [if_neg h1]
      refine ⟨Or.inr (Or.inl rfl), ?_, ?_⟩
      · intro hc
        exact absurd hc h1
      · intro hc
        omega
  · rw [if_neg h0, if_neg h0]
    refine ⟨Or.inl rfl, ?_, ?_⟩
    · intro hc
      exact absurd hc h0
    · intro hc
      omega

theorem computeFullVar_spec (g m t i : String) :
    (computeFullVar g m t i = g ++ ", " ++ m ++ ", " ++ t ++ ", " ++ i
      ∨ computeFullVar g m t i = g ++ ", " ++ m ++ ", " ++ t) ∧
    (195 < (computeFullVar g m t i).length
      ↔ 195 < (g ++ ", " ++ m ++ ", " ++ t).length) := by
  have l3 : (g ++ ", " ++ m ++ ", " ++ t).length
      ≤ (g ++ ", " ++ m ++ ", " ++ t ++ ", " ++ i).length := by
    simp only [String.length_append]
    omega
  rw [computeFullVar]
  by_cases h0 : 195 < (g ++ ", " ++ m ++ ", " ++ t ++ ", " ++ i).length
  · rw [if_pos h0]
    exact ⟨Or.inr rfl, Iff.rfl⟩
  · rw [if_neg h0]
    refine ⟨Or.inl rfl, ?_, ?_⟩
    · intro hc
      exact absurd hc h0
    · intro hc
      omega

theorem base_prompt_spec (tp : TasteProfile) :
    basePromptShape (generate_suno_prompt tp) := by
  rw [generate_suno_prompt, basePromptShape, fullFour, fullThree, fullTwo]
  exact computeFull_spec _ _ _ _

theorem var_prompt_spec {g m t i : String} :
    varPromptShape ⟨g, m, t, i, computeFullVar g m t i⟩ := by
  rw [varPromptShape, fullFour, fullThree]
  exact computeFullVar_spec g m t i

/-- C1 amended: for every taste profile, the base prompt's `full_prompt`
is one of its three whole-field compositions (instruments dropped first,
then tempo — never truncated mid-field) and exceeds 195 characters exactly
when its tempo-less final fallback does; each of the four variation
strategies yields a `full_prompt` that is its four-field or its
instrument-less composition (tempo is never dropped) and exceeds 195
exactly when that instrument-less final fallback does; and every prompt
emitted by `generate_multiple_prompts` is the base prompt or one of those
four variations of it.  Hence the 200-character bound holds whenever the
final fallbacks fit in 195 characters, which the fixed tables ensure but
arbitrary profile strings need not. -/
theorem prompt_truncation_amended (tp : TasteProfile) (n : Int) :
    basePromptShape (generate_suno_prompt tp) ∧
    (∀ f ∈ variationFns, varPromptShape (f tp (generate_suno_prompt tp))) ∧
    (∀ p ∈ generate_multiple_prompts tp n,
      p = generate_suno_prompt tp ∨
      ∃ f ∈ variationFns, p = f tp (generate_suno_prompt tp)) := by
  refine ⟨base_prompt_spec tp, ?_, ?_⟩
  · intro f hf
    rw [variationFns] at hf
    simp only [List.mem_cons, List.mem_singleton, List.not_mem_nil] at hf
    rcases hf with rfl | rfl | rfl | rfl | hfalse
    · exact var_prompt_spec
    · exact var_prompt_spec
    · exact var_prompt_spec
    · exact var_prompt_spec
    · exact absurd hfalse (by simp)
  · intro p hp
    rw [generate_multiple_prompts] at hp
    by_cases hc : (max 1 (min 5 n)).toNat = 1
    · rw [if_pos hc] at hp
      rcases List.mem_singleton.mp hp with rfl
      exact Or.inl rfl
    · rw [if_neg hc] at hp
      rcases List.mem_cons.mp hp with rfl | hmem
      · exact Or.inl rfl
      · obtain ⟨f, hf, rfl⟩ := List.mem_map.mp hmem
        exact Or.inr ⟨f, List.take_subset _ _ hf, rfl⟩

/-- C6: `generateVariations` clamps the requested count into `[1, 5]` and
always yields the base prompt first: the result length is exactly
`max(1, min(5, count))`, so a request of 0 yields one prompt and a request
of 10 yields five. -/
theorem generate_variations_clamped (tp : TasteProfile) :
    (generate_multiple_prompts tp 0).length = 1 ∧
    (generate_multiple_prompts tp 10).length = 5 ∧
    (∀ n : Int,
      (generate_multiple_prompts tp n).length = (max 1 (min 5 n)).toNat ∧
      (generate_multiple_prompts tp n).head?
        = some (generate_suno_prompt tp)) := by
  have hgen : ∀ n : Int,
      (generate_multiple_prompts tp n).length = (max 1 (min 5 n)).toNat ∧
      (generate_multiple_prompts tp n).head?
        = some (generate_suno_prompt tp) := by
    intro n
    have hc : 1 ≤ (max 1 (min 5 n)).toNat ∧ (max 1 (min 5 n)).toNat ≤ 5 := by
      omega
    rw [generate_multiple_prompts]
    by_cases h1 : (max 1 (min 5 n)).toNat = 1
    · rw [if_pos h1, h1]
      exact ⟨rfl, rfl⟩
    · rw [if_neg h1]
      constructor
      · rw [List.length_cons, List.length_map, List.length_take]
        rw [show variationFns.length = 4 from rfl]
        omega
      · rfl
  refine ⟨?_, ?_, hgen⟩
  · rw [(hgen 0).1]
    rfl
  · rw [(hgen 10).1]
    rfl

/-- A 240-character genre string exhibiting the missing final length
guard. -/
def longGenre : String :=
  "aaaaaaaaaaaaaaaaaaaaaaaaaaaaaaaaaaaaaaaaaaaaaaaaaaaaaaaaaaaaaaaaaaaaaaaaaaaaaaaaaaaaaaaaaaaaaaaaaaaaaaaaaaaaaaaaaaaaaaaaaaaaaaaaaaaaaaaaaaaaaaaaaaaaaaaaaaaaaaaaaaaaaaaaaaaaaaaaaaaaaaaaaaaaaaaaaaaaaaaaaaaaaaaaaaaaaaaaaaaaaaaaaaaaaaaaaaaaaaaa"

def cexProfile : TasteProfile :=
  { primary_genres := [longGenre], mood_keywords := ["calm"],
    energy_level := "high", tempo_preference := "fast",
    time_context := "evening", language_preference := "english" }

set_option maxRecDepth 4000 in
/-- C1 counterexample: the 200-character bound does not hold for every
taste profile.  For a profile whose single genre tag is 240 characters
long, both truncation tiers fire and the final fallback
`genres, moods` is returned unchanged at 246 characters, exceeding 200. -/
theorem prompt_cap_cex :
    200 < (generate_suno_prompt cexProfile).full_prompt.length := by decide

def wProfile : TasteProfile :=
  { primary_genres := ["Pop"], mood_keywords := ["catchy"],
    energy_level := "medium", tempo_preference := "moderate",
    time_context := "evening", language_preference := "mixed" }

theorem prompt_truncation_amended_witness :
    varPromptShape (create_energy_variation wProfile
      (generate_suno_prompt wProfile)) ∧
    (generate_suno_prompt wProfile = generate_suno_prompt wProfile ∨
      ∃ f ∈ variationFns,
        generate_suno_prompt wProfile
          = f wProfile (generate_suno_prompt wProfile)) :=
  ⟨(prompt_truncation_amended wProfile 5).2.1 create_energy_variation
      (List.Mem.head _),
   (prompt_truncation_amended wProfile 5).2.2 (generate_suno_prompt wProfile)
      (by decide)⟩

/-! ## Concrete witness data -/

def wEntryA : WatchHistoryEntry :=
  { title := "Watched Jazz piano", subtitles := [{ name := "ChanA" }],
    time := ⟨0, "2024-W01"⟩ }

def wEntryB : WatchHistoryEntry :=
  { title := "Watched Lo-fi beats", subtitles := [{ name := "ChanB" }],
    time := ⟨259200, "2024-W01"⟩ }

theorem statistics_avg_per_day_witness :
    (analyze_watch_statistics [wEntryA, wEntryB]).map
        (fun s => s.videos_per_day_avg)
      = .ok (pyRound 2 ((([wEntryA, wEntryB].length : Nat) : ℚ) /
          ((max 1 (((pyMaxTime
            ([wEntryA, wEntryB].map (fun e => e.time))).epochSec
              - (pyMinTime
                ([wEntryA, wEntryB].map (fun e => e.time))).epochSec)
                  / 86400) : Nat) : ℚ))) :=
  statistics_avg_per_day.2.2 [wEntryA, wEntryB] (by decide)

theorem diversity_scores_bounded_witness :
    (0 ≤ (calculate_diversity_score (fun _ => 0) [wEntryA]).overall_score ∧
      (calculate_diversity_score (fun _ => 0) [wEntryA]).overall_score
        ≤ 100) ∧
    (0 ≤ (calculate_diversity_score (fun _ => 0)
          [wEntryA]).top_channel_concentration ∧
      (calculate_diversity_score (fun _ => 0)
          [wEntryA]).top_channel_concentration ≤ 100) ∧
    (0 ≤ (calculate_diversity_score (fun _ => 0) [wEntryA]).unique_ratio ∧
      (calculate_diversity_score (fun _ => 0) [wEntryA]).unique_ratio ≤ 1) :=
  diversity_scores_bounded (fun _ => 0) [wEntryA] (by decide)

theorem top_channels_ranking_length_witness :
    (analyze_watch_statistics [wEntryA, wEntryB]).map
        (fun s => s.top_channels.length)
      = .ok (min 20 (uniqueKeys (channelsOf [wEntryA, wEntryB])).length) :=
  top_channels_ranking_length [wEntryA, wEntryB] (by decide)

def wEntryP1 : WatchHistoryEntry :=
  { title := "zzz", time := ⟨0, "2024-W01"⟩ }

def wEntryP2 : WatchHistoryEntry :=
  { title := "zzz", time := ⟨604800, "2024-W02"⟩ }

theorem detect_phases_minPhaseDays_dead_witness :
    detect_watching_phases (fun _ => "") [wEntryP1] 14 = [] :=
  (detect_phases_minPhaseDays_dead (fun _ => "")).2 [wEntryP1] (by decide) 14

theorem last_week_never_counted_witness :
    detect_watching_phases (fun _ => "") [wEntryP1, wEntryP2] 14 = [] :=
  (last_week_never_counted (fun _ => "")).2 [wEntryP1, wEntryP2] 14
    "2024-W01" "2024-W02" "general" 1 1 (by decide)

end MirrorMCP
